import Mathlib

/-!
Verification of the ESP32 traffic-light controller sketch
(`src/esp32sketch.ino`) against its natural-language specification.

The sketch is embedded shallowly:

* physical output lines are a map `pins : Nat → Bool` (pin number to
  logical level, `true` = HIGH); `digitalWrite` is pointwise update;
* `LaneLeds` mirrors the C struct (three pin numbers and the recorded
  `currentLed` character);
* every `Serial.print*` site that the spec calls a diagnostic or an echo
  is recorded as a `Msg` value in an output log (the two banner lines
  printed once in `setup` are pure observability and are not modelled);
* `strtok(buf, ",")` is modelled by `splitOn ','` with empty tokens
  dropped, which is exactly strtok's semantics (maximal nonempty runs
  between delimiters, leading/trailing/adjacent delimiters collapsed),
  applied to the C string, i.e. the bytes before the first NUL;
* the `loop` body is a step function consuming one incoming byte,
  carrying the accumulator buffer `serialBuffer[0..serialBufferIndex)`
  as a `List Char`; `run` folds it over a whole input byte stream.
-/

/-! ## Pin constants (lines 6-23 of the sketch) -/

def NR_PIN : Nat := 23
def NY_PIN : Nat := 22
def NG_PIN : Nat := 21

def ER_PIN : Nat := 17
def EY_PIN : Nat := 18
def EG_PIN : Nat := 19

def SR_PIN : Nat := 13
def SY_PIN : Nat := 12
def SG_PIN : Nat := 14

def WR_PIN : Nat := 25
def WY_PIN : Nat := 26
def WG_PIN : Nat := 27

/-- The struct of lines 28-33: pins for a single lane plus the recorded
current LED character (one of `'R'`, `'Y'`, `'G'`, `'O'`). -/
structure LaneLeds where
  redPin : Nat
  yellowPin : Nat
  greenPin : Nat
  currentLed : Char
deriving DecidableEq, Repr

/-- One message on the serial status channel.  Each constructor is one
`Serial.print*` site of the sketch:
`echo` = "Received command: ..." (line 97), `overflow` = the buffer
overflow error (line 90), `unknownLane` = "Unknown lane code: ..."
(line 123), `malformedPart` = "Malformed command part: ..." (line 128),
`unknownState` = "Unknown light state ... Turning all off." (line 158). -/
inductive Msg where
  | echo (line : List Char)
  | overflow
  | unknownLane (c : Char)
  | malformedPart (part : List Char)
  | unknownState (c : Char)
deriving DecidableEq, Repr

/-- Everything except the raw-line receipt echo is a diagnostic. -/
def Msg.isDiagnostic : Msg → Bool
  | .echo _ => false
  | _ => true

/-- Identity of one of the four lanes (the four globals of lines 36-39). -/
inductive LaneId where
  | north
  | east
  | south
  | west
deriving DecidableEq, Repr

/-- The mutable state of the sketch: the physical output lines and the
four global lane records. -/
structure Ctrl where
  pins : Nat → Bool
  northLane : LaneLeds
  eastLane : LaneLeds
  southLane : LaneLeds
  westLane : LaneLeds

def Ctrl.lane (st : Ctrl) : LaneId → LaneLeds
  | .north => st.northLane
  | .east => st.eastLane
  | .south => st.southLane
  | .west => st.westLane

def Ctrl.withLane (st : Ctrl) : LaneId → LaneLeds → Ctrl
  | .north, l => { st with northLane := l }
  | .east, l => { st with eastLane := l }
  | .south, l => { st with southLane := l }
  | .west, l => { st with westLane := l }

/-- `digitalWrite(p, v)` on the pin map. -/
def digitalWrite (pins : Nat → Bool) (p : Nat) (v : Bool) : Nat → Bool :=
  fun q => if q = p then v else pins q

/-- Lines 136-164: turn all three LEDs of the lane off, then switch on
the requested one.  The C code first assigns `currentLed = 'O'` and the
`'R'`/`'Y'`/`'G'` branches overwrite it, so the embedding records the
net field value per branch; the `default` branch emits the
unknown-state diagnostic and leaves everything off.  Returns the new
pin map, the new lane record, and the emitted messages. -/
def setLaneState (pins : Nat → Bool) (lane : LaneLeds) (state : Char) :
    (Nat → Bool) × LaneLeds × List Msg :=
  let p1 := digitalWrite pins lane.redPin false
  let p2 := digitalWrite p1 lane.yellowPin false
  let p3 := digitalWrite p2 lane.greenPin false
  if state = 'R' then
    (digitalWrite p3 lane.redPin true, { lane with currentLed := 'R' }, [])
  else if state = 'Y' then
    (digitalWrite p3 lane.yellowPin true, { lane with currentLed := 'Y' }, [])
  else if state = 'G' then
    (digitalWrite p3 lane.greenPin true, { lane with currentLed := 'G' }, [])
  else
    (p3, { lane with currentLed := 'O' }, [Msg.unknownState state])

/-- Apply `setLaneState` to the lane named `lid` inside the global state
(the effect of one `setLaneState(xLane, s)` call of the sketch). -/
def applyLane (st : Ctrl) (lid : LaneId) (s : Char) : Ctrl × List Msg :=
  let r := setLaneState st.pins (st.lane lid) s
  ({ st.withLane lid r.2.1 with pins := r.1 }, r.2.2)

/-- The `switch (laneCode)` of lines 109-126. -/
def decodeLane (c : Char) : Option LaneId :=
  if c = 'N' then some .north
  else if c = 'E' then some .east
  else if c = 'S' then some .south
  else if c = 'W' then some .west
  else none

/-- One iteration of the `while (part != NULL)` body, lines 103-130:
a part of exactly three characters with `':'` in the middle is
dispatched on its lane code; anything else is reported as malformed. -/
def handlePart (st : Ctrl) (part : List Char) : Ctrl × List Msg :=
  match part with
  | [laneCode, ':', lightState] =>
    match decodeLane laneCode with
    | some lid => applyLane st lid lightState
    | none => (st, [Msg.unknownLane laneCode])
  | _ => (st, [Msg.malformedPart part])

/-- The token sequence produced by repeated `strtok(_, ",")`: maximal
nonempty runs between commas (strtok never returns an empty token). -/
def strtokens (l : List Char) : List (List Char) :=
  (l.splitOn ',').filter (fun t => t ≠ [])

/-- Apply the parts of one command line in order, collecting messages. -/
def runParts (st : Ctrl) : List (List Char) → Ctrl × List Msg
  | [] => (st, [])
  | p :: ps =>
    let r := handlePart st p
    let r2 := runParts r.1 ps
    (r2.1, r.2 ++ r2.2)

/-- The NUL byte: `processCommand` receives a C string, so only the
bytes before the first NUL are visible to it. -/
def nulChar : Char := Char.ofNat 0

/-- Lines 96-133: echo the received line, tokenize it on commas and
apply each part immediately in order. -/
def processCommand (st : Ctrl) (cmd : List Char) : Ctrl × List Msg :=
  let cstr := cmd.takeWhile (fun c => c ≠ nulChar)
  let r := runParts st (strtokens cstr)
  (r.1, Msg.echo cstr :: r.2)

/-! ## Startup (lines 36-39 and 71-76) -/

/-- The four globals as initialized at lines 36-39, over an arbitrary
initial level of the physical output lines. -/
def boot (pins0 : Nat → Bool) : Ctrl :=
  { pins := pins0
    northLane := ⟨NR_PIN, NY_PIN, NG_PIN, 'R'⟩
    eastLane := ⟨ER_PIN, EY_PIN, EG_PIN, 'R'⟩
    southLane := ⟨SR_PIN, SY_PIN, SG_PIN, 'R'⟩
    westLane := ⟨WR_PIN, WY_PIN, WG_PIN, 'R'⟩ }

/-- Lines 71-75 of `setup()`: unconditionally drive all four lanes Red
before any command is accepted. -/
def setup (pins0 : Nat → Bool) : Ctrl :=
  (applyLane
    (applyLane
      (applyLane
        (applyLane (boot pins0) .north 'R').1
        .east 'R').1
      .south 'R').1
    .west 'R').1

/-! ## The serial line accumulator and control loop (lines 41-94) -/

def SERIAL_BUFFER_SIZE : Nat := 64

/-- The loop-carried state: the controller state plus the accumulator
buffer contents `serialBuffer[0..serialBufferIndex)`. -/
structure Machine where
  ctrl : Ctrl
  buf : List Char

/-- Lines 79-93: the effect of one incoming byte.  A newline hands the
accumulated line to `processCommand` and resets the buffer; a byte that
fits is appended; a byte that does not fit is discarded together with
the whole buffer, with an overflow diagnostic. -/
def loopStep (m : Machine) (c : Char) : Machine × List Msg :=
  if c = '\n' then
    let r := processCommand m.ctrl m.buf
    (⟨r.1, []⟩, r.2)
  else if m.buf.length < SERIAL_BUFFER_SIZE - 1 then
    (⟨m.ctrl, m.buf ++ [c]⟩, [])
  else
    (⟨m.ctrl, []⟩, [Msg.overflow])

/-- Feed a whole byte stream through the loop, one byte per iteration. -/
def run (m : Machine) : List Char → Machine × List Msg
  | [] => (m, [])
  | c :: cs =>
    let r := loopStep m c
    let r2 := run r.1 cs
    (r2.1, r.2 ++ r2.2)

/-! ## Observations and invariants -/

/-- The number of active output lines of lane `lid` (how many of its
red/yellow/green pins are HIGH). -/
def activeCount (st : Ctrl) (lid : LaneId) : Nat :=
  (if st.pins (st.lane lid).redPin then 1 else 0) +
  (if st.pins (st.lane lid).yellowPin then 1 else 0) +
  (if st.pins (st.lane lid).greenPin then 1 else 0)

/-- The observable lamp triple (red, yellow, green) of lane `lid`. -/
def lamps (st : Ctrl) (lid : LaneId) : Bool × Bool × Bool :=
  (st.pins (st.lane lid).redPin,
   st.pins (st.lane lid).yellowPin,
   st.pins (st.lane lid).greenPin)

/-- The pin fields of the four lane records hold the wired constants
(true of the initial state and preserved forever: nothing in the sketch
ever writes a pin field). -/
def pinsFixed (st : Ctrl) : Prop :=
  st.northLane.redPin = NR_PIN ∧ st.northLane.yellowPin = NY_PIN ∧
    st.northLane.greenPin = NG_PIN ∧
  st.eastLane.redPin = ER_PIN ∧ st.eastLane.yellowPin = EY_PIN ∧
    st.eastLane.greenPin = EG_PIN ∧
  st.southLane.redPin = SR_PIN ∧ st.southLane.yellowPin = SY_PIN ∧
    st.southLane.greenPin = SG_PIN ∧
  st.westLane.redPin = WR_PIN ∧ st.westLane.yellowPin = WY_PIN ∧
    st.westLane.greenPin = WG_PIN

instance (st : Ctrl) : Decidable (pinsFixed st) := by
  unfold pinsFixed; infer_instance

/-! ## Helper lemmas -/

theorem digitalWrite_same (pins : Nat → Bool) (p : Nat) (v : Bool) :
    digitalWrite pins p v p = v := by
  simp [digitalWrite]

theorem digitalWrite_other (pins : Nat → Bool) (p : Nat) (v : Bool) (q : Nat)
    (h : q ≠ p) : digitalWrite pins p v q = pins q := by
  simp [digitalWrite, h]

/-- The messages emitted by one `setLaneState` call: nothing for a
recognized state, exactly the unknown-state diagnostic otherwise. -/
theorem setLaneState_msgs (pins : Nat → Bool) (lane : LaneLeds) (s : Char) :
    (setLaneState pins lane s).2.2 =
      if s = 'R' ∨ s = 'Y' ∨ s = 'G' then [] else [Msg.unknownState s] := by
  unfold setLaneState
  split_ifs with h1 h2 h3 h4 <;> simp_all

/-- `setLaneState` never touches the pin fields of the lane record. -/
theorem setLaneState_lanePins (pins : Nat → Bool) (lane : LaneLeds) (s : Char) :
    ((setLaneState pins lane s).2.1).redPin = lane.redPin ∧
    ((setLaneState pins lane s).2.1).yellowPin = lane.yellowPin ∧
    ((setLaneState pins lane s).2.1).greenPin = lane.greenPin := by
  unfold setLaneState
  split_ifs <;> simp

/-- The recorded LED after one `setLaneState` call. -/
theorem setLaneState_currentLed (pins : Nat → Bool) (lane : LaneLeds) (s : Char) :
    ((setLaneState pins lane s).2.1).currentLed =
      if s = 'R' then 'R' else if s = 'Y' then 'Y' else if s = 'G' then 'G' else 'O' := by
  unfold setLaneState
  split_ifs <;> rfl

/-- `setLaneState` only writes the three pins of its own lane. -/
theorem setLaneState_pins_frame (pins : Nat → Bool) (lane : LaneLeds) (s : Char)
    (q : Nat) (hr : q ≠ lane.redPin) (hy : q ≠ lane.yellowPin)
    (hg : q ≠ lane.greenPin) :
    (setLaneState pins lane s).1 q = pins q := by
  unfold setLaneState
  split_ifs <;> simp [digitalWrite, hr, hy, hg]

/-- Lane records other than the written one are untouched. -/
theorem applyLane_lane_other (st : Ctrl) (lid lid' : LaneId) (s : Char)
    (h : lid' ≠ lid) : (applyLane st lid s).1.lane lid' = st.lane lid' := by
  cases lid <;> cases lid' <;>
    simp_all [applyLane, Ctrl.lane, Ctrl.withLane]

/-- The lane record written by `applyLane`. -/
theorem applyLane_lane_self (st : Ctrl) (lid : LaneId) (s : Char) :
    (applyLane st lid s).1.lane lid = (setLaneState st.pins (st.lane lid) s).2.1 := by
  cases lid <;> simp [applyLane, Ctrl.lane, Ctrl.withLane]

/-- The pin map written by `applyLane`. -/
theorem applyLane_pins (st : Ctrl) (lid : LaneId) (s : Char) :
    (applyLane st lid s).1.pins = (setLaneState st.pins (st.lane lid) s).1 := by
  cases lid <;> simp [applyLane, Ctrl.lane, Ctrl.withLane]

/-- The messages emitted by `applyLane`. -/
theorem applyLane_msgs (st : Ctrl) (lid : LaneId) (s : Char) :
    (applyLane st lid s).2 =
      if s = 'R' ∨ s = 'Y' ∨ s = 'G' then [] else [Msg.unknownState s] := by
  have : (applyLane st lid s).2 = (setLaneState st.pins (st.lane lid) s).2.2 := rfl
  rw [this, setLaneState_msgs]

/-- `applyLane` preserves the wiring invariant. -/
theorem applyLane_pinsFixed (st : Ctrl) (lid : LaneId) (s : Char)
    (hpf : pinsFixed st) : pinsFixed (applyLane st lid s).1 := by
  obtain ⟨h1, h2, h3, h4, h5, h6, h7, h8, h9, h10, h11, h12⟩ := hpf
  cases lid <;>
    simp_all [pinsFixed, applyLane, setLaneState, Ctrl.lane, Ctrl.withLane] <;>
    split_ifs <;> simp_all

/-- The recorded LED of the written lane after `applyLane`. -/
theorem applyLane_currentLed (st : Ctrl) (lid : LaneId) (s : Char) :
    ((applyLane st lid s).1.lane lid).currentLed =
      if s = 'R' then 'R' else if s = 'Y' then 'Y' else if s = 'G' then 'G' else 'O' := by
  rw [applyLane_lane_self, setLaneState_currentLed]

/-- The lamp triple of the written lane after `applyLane`, under the
wiring invariant: exactly the requested lamp for a recognized state,
all off otherwise. -/
theorem applyLane_lamps_self (st : Ctrl) (lid : LaneId) (s : Char)
    (hpf : pinsFixed st) :
    lamps (applyLane st lid s).1 lid =
      (decide (s = 'R'), decide (s = 'Y'), decide (s = 'G')) := by
  obtain ⟨h1, h2, h3, h4, h5, h6, h7, h8, h9, h10, h11, h12⟩ := hpf
  cases lid <;>
    simp_all [lamps, applyLane, setLaneState, digitalWrite, Ctrl.lane,
      Ctrl.withLane, NR_PIN, NY_PIN, NG_PIN, ER_PIN, EY_PIN, EG_PIN,
      SR_PIN, SY_PIN, SG_PIN, WR_PIN, WY_PIN, WG_PIN] <;>
    split_ifs <;> simp_all [digitalWrite]

/-- The lamp triples of the other lanes are untouched by `applyLane`,
because the twelve wired pins are pairwise distinct. -/
theorem applyLane_lamps_other (st : Ctrl) (lid lid' : LaneId) (s : Char)
    (hpf : pinsFixed st) (h : lid' ≠ lid) :
    lamps (applyLane st lid s).1 lid' = lamps st lid' := by
  obtain ⟨h1, h2, h3, h4, h5, h6, h7, h8, h9, h10, h11, h12⟩ := hpf
  cases lid <;> cases lid' <;>
    simp_all [lamps, applyLane, setLaneState, digitalWrite, Ctrl.lane,
      Ctrl.withLane, NR_PIN, NY_PIN, NG_PIN, ER_PIN, EY_PIN, EG_PIN,
      SR_PIN, SY_PIN, SG_PIN, WR_PIN, WY_PIN, WG_PIN] <;>
    split_ifs <;> simp_all [digitalWrite]

theorem boot_pinsFixed (pins0 : Nat → Bool) : pinsFixed (boot pins0) := by
  simp [boot, pinsFixed]

theorem setup_pinsFixed (pins0 : Nat → Bool) : pinsFixed (setup pins0) :=
  applyLane_pinsFixed _ .west 'R'
    (applyLane_pinsFixed _ .south 'R'
      (applyLane_pinsFixed _ .east 'R'
        (applyLane_pinsFixed _ .north 'R' (boot_pinsFixed pins0))))

/-- After `setup` every lane shows red only and records `'R'`. -/
theorem setup_lane (pins0 : Nat → Bool) (lid : LaneId) :
    lamps (setup pins0) lid = (true, false, false) ∧
    ((setup pins0).lane lid).currentLed = 'R' := by
  have hb := boot_pinsFixed pins0
  have h1 := applyLane_pinsFixed (boot pins0) .north 'R' hb
  have h2 := applyLane_pinsFixed _ .east 'R' h1
  have h3 := applyLane_pinsFixed _ .south 'R' h2
  unfold setup
  cases lid
  case north =>
    refine ⟨?_, ?_⟩
    · rw [applyLane_lamps_other _ _ _ _ h3 (by decide),
        applyLane_lamps_other _ _ _ _ h2 (by decide),
        applyLane_lamps_other _ _ _ _ h1 (by decide),
        applyLane_lamps_self _ _ _ hb]
      decide
    · rw [applyLane_lane_other _ _ _ _ (by decide),
        applyLane_lane_other _ _ _ _ (by decide),
        applyLane_lane_other _ _ _ _ (by decide),
        applyLane_currentLed]
      decide
  case east =>
    refine ⟨?_, ?_⟩
    · rw [applyLane_lamps_other _ _ _ _ h3 (by decide),
        applyLane_lamps_other _ _ _ _ h2 (by decide),
        applyLane_lamps_self _ _ _ h1]
      decide
    · rw [applyLane_lane_other _ _ _ _ (by decide),
        applyLane_lane_other _ _ _ _ (by decide),
        applyLane_currentLed]
      decide
  case south =>
    refine ⟨?_, ?_⟩
    · rw [applyLane_lamps_other _ _ _ _ h3 (by decide),
        applyLane_lamps_self _ _ _ h2]
      decide
    · rw [applyLane_lane_other _ _ _ _ (by decide), applyLane_currentLed]
      decide
  case west =>
    refine ⟨?_, ?_⟩
    · rw [applyLane_lamps_self _ _ _ h3]
      decide
    · rw [applyLane_currentLed]
      decide

/-! ## The mutual-exclusion invariant over reachable states -/

theorem lamps_activeCount (st : Ctrl) (lid : LaneId) :
    activeCount st lid =
      (if (lamps st lid).1 then 1 else 0) +
      (if (lamps st lid).2.1 then 1 else 0) +
      (if (lamps st lid).2.2 then 1 else 0) := rfl

/-- The inductive invariant: wiring fixed and at most one lamp lit per
lane. -/
def CtrlInv (st : Ctrl) : Prop :=
  pinsFixed st ∧ ∀ lid, activeCount st lid ≤ 1

theorem applyLane_inv (st : Ctrl) (lid : LaneId) (s : Char) (h : CtrlInv st) :
    CtrlInv (applyLane st lid s).1 := by
  obtain ⟨hpf, hcnt⟩ := h
  refine ⟨applyLane_pinsFixed _ _ _ hpf, ?_⟩
  intro lid'
  by_cases e : lid' = lid
  · subst e
    rw [lamps_activeCount, applyLane_lamps_self _ _ _ hpf]
    by_cases hR : s = 'R' <;> by_cases hY : s = 'Y' <;> by_cases hG : s = 'G' <;>
      simp_all
  · rw [lamps_activeCount, applyLane_lamps_other _ _ _ _ hpf e,
      ← lamps_activeCount]
    exact hcnt lid'

theorem handlePart_inv (st : Ctrl) (part : List Char) (h : CtrlInv st) :
    CtrlInv (handlePart st part).1 := by
  unfold handlePart
  split
  · split
    · exact applyLane_inv _ _ _ h
    · exact h
  · exact h

theorem runParts_inv (ps : List (List Char)) (st : Ctrl) (h : CtrlInv st) :
    CtrlInv (runParts st ps).1 := by
  induction ps generalizing st with
  | nil => exact h
  | cons p ps ih => exact ih _ (handlePart_inv st p h)

theorem processCommand_inv (st : Ctrl) (cmd : List Char) (h : CtrlInv st) :
    CtrlInv (processCommand st cmd).1 :=
  runParts_inv _ _ h

theorem loopStep_inv (m : Machine) (c : Char) (h : CtrlInv m.ctrl) :
    CtrlInv (loopStep m c).1.ctrl := by
  unfold loopStep
  split
  · exact processCommand_inv _ _ h
  · split
    · exact h
    · exact h

theorem run_inv (stream : List Char) (m : Machine) (h : CtrlInv m.ctrl) :
    CtrlInv (run m stream).1.ctrl := by
  induction stream generalizing m with
  | nil => exact h
  | cons c cs ih => exact ih _ (loopStep_inv m c h)

theorem setup_inv (pins0 : Nat → Bool) : CtrlInv (setup pins0) := by
  refine ⟨setup_pinsFixed pins0, ?_⟩
  intro lid
  rw [lamps_activeCount, (setup_lane pins0 lid).1]
  simp

/-! ## Tokenization lemmas (strtok semantics) -/

/-- Splitting across a separator concatenates the two splits. -/
theorem splitOnP_sep_append (p : Char → Bool) (sep : Char)
    (hsep : p sep = true) (xs ys : List Char) :
    (xs ++ sep :: ys).splitOnP p = xs.splitOnP p ++ ys.splitOnP p := by
  induction xs with
  | nil => simp [List.splitOnP_cons, hsep]
  | cons x xs ih =>
    by_cases hx : p x
    · simp [List.splitOnP_cons, hx, ih]
    · have hne := List.splitOnP_ne_nil p xs
      obtain ⟨t, ts, ht⟩ : ∃ t ts, xs.splitOnP p = t :: ts := by
        cases h : xs.splitOnP p with
        | nil => exact absurd h hne
        | cons t ts => exact ⟨t, ts, rfl⟩
      simp [List.splitOnP_cons, hx, ih, ht, List.modifyHead]

/-- strtok collapses a separator: the tokens of `xs ++ "," ++ ys` are
the tokens of `xs` followed by the tokens of `ys`. -/
theorem strtokens_append (xs ys : List Char) :
    strtokens (xs ++ ',' :: ys) = strtokens xs ++ strtokens ys := by
  unfold strtokens List.splitOn
  rw [splitOnP_sep_append _ _ (by simp) xs ys, List.filter_append]

/-- A comma-free nonempty list is a single token. -/
theorem strtokens_single (xs : List Char) (hne : xs ≠ [])
    (hc : ',' ∉ xs) : strtokens xs = [xs] := by
  unfold strtokens List.splitOn
  rw [List.splitOnP_eq_single]
  · simp [hne]
  · intro x hx
    simp only [beq_iff_eq]
    intro h
    exact hc (h ▸ hx)

theorem strtokens_nil : strtokens [] = [] := rfl

/-- Leading comma dropped. -/
theorem strtokens_leading (ys : List Char) :
    strtokens (',' :: ys) = strtokens ys := strtokens_append [] ys

/-- Trailing comma dropped. -/
theorem strtokens_trailing (xs : List Char) :
    strtokens (xs ++ [',']) = strtokens xs := by
  have := strtokens_append xs []
  simpa [strtokens_nil] using this

/-- Doubled comma collapses to a single one. -/
theorem strtokens_double (xs ys : List Char) :
    strtokens (xs ++ ',' :: ',' :: ys) = strtokens (xs ++ ',' :: ys) := by
  rw [strtokens_append, strtokens_leading, ← strtokens_append]

/-! ## Structure of `processCommand` -/

/-- The diagnostics among a message list (everything but the echo). -/
def diagnostics (msgs : List Msg) : List Msg :=
  msgs.filter (fun m => m.isDiagnostic)

theorem takeWhile_of_nul_free (cmd : List Char) (h : nulChar ∉ cmd) :
    cmd.takeWhile (fun c => c ≠ nulChar) = cmd := by
  rw [List.takeWhile_eq_self_iff]
  intro x hx
  simp only [ne_eq, decide_eq_true_eq]
  intro he
  exact h (he ▸ hx)

/-- On a NUL-free line, `processCommand` is the part-by-part fold over
the strtok tokens, prefixed by the receipt echo. -/
theorem processCommand_eq (st : Ctrl) (cmd : List Char) (h : nulChar ∉ cmd) :
    processCommand st cmd =
      ((runParts st (strtokens cmd)).1,
        Msg.echo cmd :: (runParts st (strtokens cmd)).2) := by
  unfold processCommand
  rw [takeWhile_of_nul_free cmd h]

/-- Every message emitted while handling one part is a diagnostic. -/
theorem handlePart_diagnostic (st : Ctrl) (part : List Char) :
    ∀ m ∈ (handlePart st part).2, m.isDiagnostic = true := by
  unfold handlePart
  split
  · split
    · intro m hm
      rw [applyLane_msgs] at hm
      split_ifs at hm <;> simp_all [Msg.isDiagnostic]
    · intro m hm
      simp_all [Msg.isDiagnostic]
  · intro m hm
    simp_all [Msg.isDiagnostic]

theorem runParts_diagnostic (ps : List (List Char)) (st : Ctrl) :
    ∀ m ∈ (runParts st ps).2, m.isDiagnostic = true := by
  induction ps generalizing st with
  | nil => intro m hm; simp [runParts] at hm
  | cons p ps ih =>
    intro m hm
    simp only [runParts, List.mem_append] at hm
    rcases hm with hm | hm
    · exact handlePart_diagnostic st p m hm
    · exact ih _ m hm

/-- The diagnostics of one processed line are exactly the messages of
its part-by-part fold: the echo is filtered out, and everything a part
emits is a diagnostic. -/
theorem processCommand_diagnostics (st : Ctrl) (cmd : List Char)
    (h : nulChar ∉ cmd) :
    diagnostics (processCommand st cmd).2 = (runParts st (strtokens cmd)).2 := by
  rw [processCommand_eq st cmd h]
  simp only [diagnostics, List.filter_cons]
  rw [List.filter_eq_self.mpr (runParts_diagnostic _ _)]
  simp [Msg.isDiagnostic]

/-! ## Structure of the control loop -/

theorem run_append (m : Machine) (xs ys : List Char) :
    run m (xs ++ ys) =
      ((run (run m xs).1 ys).1, (run m xs).2 ++ (run (run m xs).1 ys).2) := by
  induction xs generalizing m with
  | nil => simp [run]
  | cons c cs ih =>
    simp only [List.cons_append, run, List.append_eq]
    rw [ih]
    simp

/-- After any terminator the accumulator buffer is empty. -/
theorem run_newline_buf (m : Machine) (xs : List Char) :
    (run m (xs ++ ['\n'])).1.buf = [] := by
  rw [run_append]
  simp [run, loopStep]

/-- A short newline-free line followed by its terminator accumulates in
full and is handed (appended to the pending buffer) to the parser. -/
theorem run_accumulate (line : List Char) (m : Machine)
    (hn : '\n' ∉ line)
    (hlen : m.buf.length + line.length ≤ SERIAL_BUFFER_SIZE - 1) :
    run m (line ++ ['\n']) =
      (⟨(processCommand m.ctrl (m.buf ++ line)).1, []⟩,
        (processCommand m.ctrl (m.buf ++ line)).2) := by
  induction line generalizing m with
  | nil => simp [run, loopStep]
  | cons c cs ih =>
    have hc : c ≠ '\n' := fun h => hn (by simp [h])
    have hfit : m.buf.length < SERIAL_BUFFER_SIZE - 1 := by
      simp [SERIAL_BUFFER_SIZE] at hlen ⊢
      omega
    have hstep : loopStep m c = (⟨m.ctrl, m.buf ++ [c]⟩, []) := by
      simp [loopStep, hc, hfit]
    have hrest := ih ⟨m.ctrl, m.buf ++ [c]⟩
      (fun h => hn (List.mem_cons_of_mem c h))
      (by simp at hlen ⊢; omega)
    simp only [List.cons_append, run, hstep, List.append_eq]
    rw [hrest]
    simp

/-! ## Lane codes -/

def laneChar : LaneId → Char
  | .north => 'N'
  | .east => 'E'
  | .south => 'S'
  | .west => 'W'

theorem decodeLane_laneChar (lid : LaneId) :
    decodeLane (laneChar lid) = some lid := by
  cases lid <;> rfl

/-- A well-formed three-character segment with a recognized lane code is
dispatched straight to `setLaneState` on that lane, whatever the state
character is. -/
theorem handlePart_seg (st : Ctrl) (lid : LaneId) (s : Char) :
    handlePart st [laneChar lid, ':', s] = applyLane st lid s := by
  cases lid <;> simp [handlePart, decodeLane, laneChar]

/-! ## Claim theorems -/

/-- C1: every `setLaneState` call leaves at most one of the lane's three
output lines active — the matching one (exactly one lit) for a state in
{R, Y, G}, none for any other state character — and, since
`setLaneState` is the only operation that mutates lamp outputs, in every
state reachable from startup by any input byte stream every lane has at
most one active output. -/
theorem lane_mutual_exclusion :
    (∀ (st : Ctrl) (lid : LaneId) (s : Char), pinsFixed st →
      lamps (applyLane st lid s).1 lid =
        (decide (s = 'R'), decide (s = 'Y'), decide (s = 'G')) ∧
      ((s = 'R' ∨ s = 'Y' ∨ s = 'G') →
        activeCount (applyLane st lid s).1 lid = 1) ∧
      (¬(s = 'R' ∨ s = 'Y' ∨ s = 'G') →
        activeCount (applyLane st lid s).1 lid = 0)) ∧
    (∀ (pins0 : Nat → Bool) (stream : List Char) (lid : LaneId),
      activeCount (run ⟨setup pins0, []⟩ stream).1.ctrl lid ≤ 1) := by
  constructor
  · intro st lid s hpf
    refine ⟨applyLane_lamps_self st lid s hpf, ?_, ?_⟩
    · intro hs
      rw [lamps_activeCount, applyLane_lamps_self st lid s hpf]
      rcases hs with rfl | rfl | rfl <;> decide
    · intro hs
      push_neg at hs
      rw [lamps_activeCount, applyLane_lamps_self st lid s hpf]
      simp [hs.1, hs.2.1, hs.2.2]
  · intro pins0 stream lid
    exact (run_inv stream ⟨setup pins0, []⟩ (setup_inv pins0)).2 lid

theorem lane_mutual_exclusion_witness :
    pinsFixed (setup (fun _ => false)) ∧
    ('G' = 'R' ∨ 'G' = 'Y' ∨ 'G' = 'G') ∧
    activeCount (applyLane (setup (fun _ => false)) .north 'G').1 .north = 1 ∧
    ¬('Z' = 'R' ∨ 'Z' = 'Y' ∨ 'Z' = 'G') ∧
    activeCount (applyLane (setup (fun _ => false)) .north 'Z').1 .north = 0 ∧
    activeCount (run ⟨setup (fun _ => false), []⟩ ['N', ':', 'Y', '\n']).1.ctrl .north ≤ 1 :=
  ⟨by decide, by decide,
    (lane_mutual_exclusion.1 (setup (fun _ => false)) .north 'G' (by decide)).2.1
      (by decide),
    by decide,
    (lane_mutual_exclusion.1 (setup (fun _ => false)) .north 'Z' (by decide)).2.2
      (by decide),
    lane_mutual_exclusion.2 (fun _ => false) ['N', ':', 'Y', '\n'] .north⟩

/-- C2: immediately after initialization (`setup` drives all four lanes
red) and before any command byte is processed, every lane records `'R'`
and shows exactly its red output active. -/
theorem startup_all_red :
    ∀ (pins0 : Nat → Bool) (lid : LaneId),
      ((setup pins0).lane lid).currentLed = 'R' ∧
      lamps (setup pins0) lid = (true, false, false) := by
  intro pins0 lid
  exact ⟨(setup_lane pins0 lid).2, (setup_lane pins0 lid).1⟩

/-- C8: `setLaneState` is idempotent — repeating the same call on its
own result returns exactly the same pin map, lane record and messages,
so the observable lamp state (observed between calls of the
single-threaded loop, the controller's granularity) is identical both
times and the second call changes nothing. -/
theorem setLaneState_fst_eval (pins : Nat → Bool) (lane : LaneLeds) (s : Char)
    (q : Nat) :
    (setLaneState pins lane s).1 q =
      if s = 'R' ∧ q = lane.redPin then true
      else if s = 'Y' ∧ q = lane.yellowPin then true
      else if s = 'G' ∧ q = lane.greenPin then true
      else if q = lane.redPin ∨ q = lane.yellowPin ∨ q = lane.greenPin then false
      else pins q := by
  simp only [setLaneState, digitalWrite]
  split_ifs <;> (try simp_all [digitalWrite]) <;> (intros; simp_all)

theorem setLaneState_lane (pins : Nat → Bool) (lane : LaneLeds) (s : Char) :
    (setLaneState pins lane s).2.1 =
      { lane with currentLed := if s = 'R' then 'R' else if s = 'Y' then 'Y'
          else if s = 'G' then 'G' else 'O' } := by
  unfold setLaneState
  split_ifs <;> simp_all

theorem setLaneState_idempotent :
    ∀ (pins : Nat → Bool) (lane : LaneLeds) (s : Char),
      (setLaneState (setLaneState pins lane s).1 (setLaneState pins lane s).2.1 s).1 =
          (setLaneState pins lane s).1 ∧
      (setLaneState (setLaneState pins lane s).1 (setLaneState pins lane s).2.1 s).2.1 =
          (setLaneState pins lane s).2.1 ∧
      (setLaneState (setLaneState pins lane s).1 (setLaneState pins lane s).2.1 s).2.2 =
          (setLaneState pins lane s).2.2 := by
  intro pins lane s
  obtain ⟨er, ey, eg⟩ := setLaneState_lanePins pins lane s
  refine ⟨?_, ?_, ?_⟩
  · funext q
    rw [setLaneState_fst_eval, er, ey, eg, setLaneState_fst_eval]
    split_ifs <;> simp_all
  · rw [setLaneState_lane, setLaneState_lane]
  · rw [setLaneState_msgs, setLaneState_msgs]

/-- C9: a line of zero accumulated bytes (a bare terminator) is a no-op:
the parser produces no directives, no lane changes, and no diagnostics —
only the receipt echo of the empty line is emitted. -/
theorem empty_line_noop :
    ∀ st : Ctrl,
      processCommand st [] = (st, [Msg.echo []]) ∧
      run ⟨st, []⟩ ['\n'] = (⟨st, []⟩, [Msg.echo []]) ∧
      diagnostics [Msg.echo []] = [] := by
  intro st
  exact ⟨rfl, rfl, rfl⟩

theorem runParts_nil (st : Ctrl) : runParts st [] = (st, []) := rfl

theorem runParts_cons (st : Ctrl) (p : List Char) (ps : List (List Char)) :
    runParts st (p :: ps) =
      ((runParts (handlePart st p).1 ps).1,
        (handlePart st p).2 ++ (runParts (handlePart st p).1 ps).2) := rfl

theorem processCommand_fst (st : Ctrl) (cmd : List Char) (h : nulChar ∉ cmd) :
    (processCommand st cmd).1 = (runParts st (strtokens cmd)).1 := by
  rw [processCommand_eq st cmd h]

/-- C5: applying one segment (lane, state) of a valid line with state in
{R, Y, G} — which the parser dispatches via the lane switch — leaves the
named lane with exactly one active output, the one matching the request,
records the state character, and leaves every other lane's record and
all three of its outputs unchanged. -/
theorem segment_frame_effect :
    ∀ (st : Ctrl) (lid : LaneId) (s : Char), pinsFixed st →
      (s = 'R' ∨ s = 'Y' ∨ s = 'G') →
      handlePart st [laneChar lid, ':', s] = applyLane st lid s ∧
      activeCount (applyLane st lid s).1 lid = 1 ∧
      lamps (applyLane st lid s).1 lid =
        (decide (s = 'R'), decide (s = 'Y'), decide (s = 'G')) ∧
      ((applyLane st lid s).1.lane lid).currentLed = s ∧
      ∀ lid', lid' ≠ lid →
        (applyLane st lid s).1.lane lid' = st.lane lid' ∧
        lamps (applyLane st lid s).1 lid' = lamps st lid' := by
  intro st lid s hpf hs
  refine ⟨handlePart_seg st lid s, ?_, applyLane_lamps_self st lid s hpf, ?_, ?_⟩
  · rw [lamps_activeCount, applyLane_lamps_self st lid s hpf]
    rcases hs with rfl | rfl | rfl <;> decide
  · rw [applyLane_currentLed]
    rcases hs with rfl | rfl | rfl <;> decide
  · intro lid' h
    exact ⟨applyLane_lane_other st lid lid' s h,
      applyLane_lamps_other st lid lid' s hpf h⟩

theorem segment_frame_effect_witness :
    pinsFixed (setup (fun _ => false)) ∧
    ('Y' = 'R' ∨ 'Y' = 'Y' ∨ 'Y' = 'G') ∧
    activeCount (applyLane (setup (fun _ => false)) .east 'Y').1 .east = 1 ∧
    ((applyLane (setup (fun _ => false)) .east 'Y').1.lane .east).currentLed = 'Y' ∧
    (applyLane (setup (fun _ => false)) .east 'Y').1.lane .north =
      (setup (fun _ => false)).lane .north :=
  ⟨by decide, by decide,
    (segment_frame_effect (setup (fun _ => false)) .east 'Y' (by decide)
      (by decide)).2.1,
    (segment_frame_effect (setup (fun _ => false)) .east 'Y' (by decide)
      (by decide)).2.2.2.1,
    ((segment_frame_effect (setup (fun _ => false)) .east 'Y' (by decide)
      (by decide)).2.2.2.2 .north (by decide)).1⟩

/-- C7: a segment with a recognized lane code and a state character not
in {R, Y, G} is forwarded unchanged to the lane model, which switches
all three outputs of that lane off, records `'O'`, and emits exactly one
diagnostic; no error is raised. -/
theorem unknown_state_off :
    ∀ (st : Ctrl) (lid : LaneId) (s : Char), pinsFixed st →
      ¬(s = 'R' ∨ s = 'Y' ∨ s = 'G') →
      handlePart st [laneChar lid, ':', s] = applyLane st lid s ∧
      lamps (applyLane st lid s).1 lid = (false, false, false) ∧
      ((applyLane st lid s).1.lane lid).currentLed = 'O' ∧
      (applyLane st lid s).2 = [Msg.unknownState s] ∧
      diagnostics (applyLane st lid s).2 = [Msg.unknownState s] := by
  intro st lid s hpf hs
  push_neg at hs
  obtain ⟨h1, h2, h3⟩ := hs
  refine ⟨handlePart_seg st lid s, ?_, ?_, ?_, ?_⟩
  · rw [applyLane_lamps_self st lid s hpf]
    simp [h1, h2, h3]
  · rw [applyLane_currentLed]
    simp [h1, h2, h3]
  · rw [applyLane_msgs]
    simp [h1, h2, h3]
  · rw [applyLane_msgs]
    simp [h1, h2, h3, diagnostics, Msg.isDiagnostic]

theorem unknown_state_off_witness :
    pinsFixed (setup (fun _ => false)) ∧
    ¬('Z' = 'R' ∨ 'Z' = 'Y' ∨ 'Z' = 'G') ∧
    handlePart (setup (fun _ => false)) ['N', ':', 'Z'] =
      applyLane (setup (fun _ => false)) .north 'Z' ∧
    lamps (applyLane (setup (fun _ => false)) .north 'Z').1 .north =
      (false, false, false) ∧
    ((applyLane (setup (fun _ => false)) .north 'Z').1.lane .north).currentLed = 'O' ∧
    (applyLane (setup (fun _ => false)) .north 'Z').2 = [Msg.unknownState 'Z'] :=
  ⟨by decide, by decide,
    (unknown_state_off (setup (fun _ => false)) .north 'Z' (by decide) (by decide)).1,
    (unknown_state_off (setup (fun _ => false)) .north 'Z' (by decide) (by decide)).2.1,
    (unknown_state_off (setup (fun _ => false)) .north 'Z' (by decide) (by decide)).2.2.1,
    (unknown_state_off (setup (fun _ => false)) .north 'Z' (by decide) (by decide)).2.2.2.1⟩

/-- The line `N:G,X:R,E:Y` of the partial-failure test. -/
def nxeLine : List Char := ['N', ':', 'G', ',', 'X', ':', 'R', ',', 'E', ':', 'Y']

/-- C4: a malformed segment (length different from 3 or no `':'` at
position 1) and a segment with an unrecognized lane code each produce
exactly one diagnostic and leave the state untouched, without aborting
the rest of the line: on `N:G,X:R,E:Y`, north ends Green, east ends
Yellow, south and west are unchanged, and exactly one diagnostic (for
the `X` lane code) is emitted. -/
theorem bad_segment_skipped :
    (∀ (st : Ctrl) (part : List Char),
      (part.length ≠ 3 ∨ part[1]? ≠ some ':') →
      handlePart st part = (st, [Msg.malformedPart part])) ∧
    (∀ (st : Ctrl) (a c : Char), decodeLane a = none →
      handlePart st [a, ':', c] = (st, [Msg.unknownLane a])) ∧
    (∀ st : Ctrl, pinsFixed st →
      ((processCommand st nxeLine).1.lane .north).currentLed = 'G' ∧
      lamps (processCommand st nxeLine).1 .north = (false, false, true) ∧
      ((processCommand st nxeLine).1.lane .east).currentLed = 'Y' ∧
      lamps (processCommand st nxeLine).1 .east = (false, true, false) ∧
      (processCommand st nxeLine).1.lane .south = st.lane .south ∧
      lamps (processCommand st nxeLine).1 .south = lamps st .south ∧
      (processCommand st nxeLine).1.lane .west = st.lane .west ∧
      lamps (processCommand st nxeLine).1 .west = lamps st .west ∧
      diagnostics (processCommand st nxeLine).2 = [Msg.unknownLane 'X']) := by
  refine ⟨?_, ?_, ?_⟩
  · intro st part h
    unfold handlePart
    split
    · rename_i laneCode lightState
      rcases h with h | h <;> simp at h
    · rfl
  · intro st a c h
    simp [handlePart, h]
  · intro st hpf
    have hnul : nulChar ∉ nxeLine := by decide
    have htok : strtokens nxeLine = [['N', ':', 'G'], ['X', ':', 'R'], ['E', ':', 'Y']] := by
      decide
    have e1 : handlePart st ['N', ':', 'G'] = applyLane st .north 'G' :=
      handlePart_seg st .north 'G'
    have e2 : handlePart (applyLane st .north 'G').1 ['X', ':', 'R'] =
        ((applyLane st .north 'G').1, [Msg.unknownLane 'X']) := by
      simp [handlePart, decodeLane]
    have e3 : handlePart (applyLane st .north 'G').1 ['E', ':', 'Y'] =
        applyLane (applyLane st .north 'G').1 .east 'Y' :=
      handlePart_seg (applyLane st .north 'G').1 .east 'Y'
    have hrun : runParts st (strtokens nxeLine) =
        ((applyLane (applyLane st .north 'G').1 .east 'Y').1,
          [Msg.unknownLane 'X']) := by
      rw [htok, runParts_cons, e1, runParts_cons, e2, runParts_cons, e3,
        runParts_nil]
      rw [applyLane_msgs, applyLane_msgs]
      simp
    have hpf1 := applyLane_pinsFixed st .north 'G' hpf
    have hst : (processCommand st nxeLine).1 =
        (applyLane (applyLane st .north 'G').1 .east 'Y').1 := by
      rw [processCommand_fst st nxeLine hnul, hrun]
    have hdiag : diagnostics (processCommand st nxeLine).2 = [Msg.unknownLane 'X'] := by
      rw [processCommand_diagnostics st nxeLine hnul, hrun]
    refine ⟨?_, ?_, ?_, ?_, ?_, ?_, ?_, ?_, hdiag⟩
    · rw [hst, applyLane_lane_other _ _ _ _ (by decide), applyLane_currentLed]
      decide
    · rw [hst, applyLane_lamps_other _ _ _ _ hpf1 (by decide),
        applyLane_lamps_self st .north 'G' hpf]
      decide
    · rw [hst, applyLane_currentLed]
      decide
    · rw [hst, applyLane_lamps_self _ _ _ hpf1]
      decide
    · rw [hst, applyLane_lane_other _ _ _ _ (by decide),
        applyLane_lane_other _ _ _ _ (by decide)]
    · rw [hst, applyLane_lamps_other _ _ _ _ hpf1 (by decide),
        applyLane_lamps_other _ _ _ _ hpf (by decide)]
    · rw [hst, applyLane_lane_other _ _ _ _ (by decide),
        applyLane_lane_other _ _ _ _ (by decide)]
    · rw [hst, applyLane_lamps_other _ _ _ _ hpf1 (by decide),
        applyLane_lamps_other _ _ _ _ hpf (by decide)]

theorem bad_segment_skipped_witness :
    ((['N', ':'] : List Char).length ≠ 3 ∨ (['N', ':'] : List Char)[1]? ≠ some ':') ∧
    handlePart (setup (fun _ => false)) ['N', ':'] =
      (setup (fun _ => false), [Msg.malformedPart ['N', ':']]) ∧
    decodeLane 'X' = none ∧
    handlePart (setup (fun _ => false)) ['X', ':', 'R'] =
      (setup (fun _ => false), [Msg.unknownLane 'X']) ∧
    pinsFixed (setup (fun _ => false)) ∧
    ((processCommand (setup (fun _ => false)) nxeLine).1.lane .north).currentLed = 'G' ∧
    diagnostics (processCommand (setup (fun _ => false)) nxeLine).2 =
      [Msg.unknownLane 'X'] :=
  ⟨by decide,
    bad_segment_skipped.1 (setup (fun _ => false)) ['N', ':'] (by decide),
    by decide,
    bad_segment_skipped.2.1 (setup (fun _ => false)) 'X' 'R' (by decide),
    by decide,
    (bad_segment_skipped.2.2 (setup (fun _ => false)) (by decide)).1,
    (bad_segment_skipped.2.2 (setup (fun _ => false)) (by decide)).2.2.2.2.2.2.2.2⟩

/-- The line `N:R,N:G` of the last-writer-wins test. -/
def nrngLine : List Char := ['N', ':', 'R', ',', 'N', ':', 'G']

/-- C6: directives of one line are applied immediately and sequentially
in segment order, so two directives to the same lane end with the later
one's state — in general (applying c1 then c2 to a lane shows the same
lamps and recorded state as applying c2 alone) and on the concrete line
`N:R,N:G`, after which north is Green. -/
theorem last_writer_wins :
    (∀ (st : Ctrl) (lid : LaneId) (c1 c2 : Char), pinsFixed st →
      lamps (applyLane (applyLane st lid c1).1 lid c2).1 lid =
        lamps (applyLane st lid c2).1 lid ∧
      ((applyLane (applyLane st lid c1).1 lid c2).1.lane lid).currentLed =
        ((applyLane st lid c2).1.lane lid).currentLed) ∧
    (∀ st : Ctrl, pinsFixed st →
      ((processCommand st nrngLine).1.lane .north).currentLed = 'G' ∧
      lamps (processCommand st nrngLine).1 .north = (false, false, true)) := by
  constructor
  · intro st lid c1 c2 hpf
    constructor
    · rw [applyLane_lamps_self _ _ _ (applyLane_pinsFixed _ _ _ hpf),
        applyLane_lamps_self _ _ _ hpf]
    · rw [applyLane_currentLed, applyLane_currentLed]
  · intro st hpf
    have hnul : nulChar ∉ nrngLine := by decide
    have htok : strtokens nrngLine = [['N', ':', 'R'], ['N', ':', 'G']] := by decide
    have e1 : handlePart st ['N', ':', 'R'] = applyLane st .north 'R' :=
      handlePart_seg st .north 'R'
    have e2 : handlePart (applyLane st .north 'R').1 ['N', ':', 'G'] =
        applyLane (applyLane st .north 'R').1 .north 'G' :=
      handlePart_seg (applyLane st .north 'R').1 .north 'G'
    have hst : (processCommand st nrngLine).1 =
        (applyLane (applyLane st .north 'R').1 .north 'G').1 := by
      rw [processCommand_fst st nrngLine hnul, htok, runParts_cons, e1,
        runParts_cons, e2, runParts_nil]
    have hpf1 := applyLane_pinsFixed st .north 'R' hpf
    constructor
    · rw [hst, applyLane_currentLed]
      decide
    · rw [hst, applyLane_lamps_self _ _ _ hpf1]
      decide

theorem last_writer_wins_witness :
    pinsFixed (setup (fun _ => false)) ∧
    lamps (applyLane (applyLane (setup (fun _ => false)) .north 'R').1 .north 'G').1 .north =
      lamps (applyLane (setup (fun _ => false)) .north 'G').1 .north ∧
    ((processCommand (setup (fun _ => false)) nrngLine).1.lane .north).currentLed = 'G' :=
  ⟨by decide,
    (last_writer_wins.1 (setup (fun _ => false)) .north 'R' 'G' (by decide)).1,
    (last_writer_wins.2 (setup (fun _ => false)) (by decide)).1⟩

/-- An over-long line: 67 non-newline bytes (64 filler bytes, then
`N:G`) followed by the terminator. -/
def overlongStream : List Char := List.replicate 64 'A' ++ ['N', ':', 'G', '\n']

set_option maxRecDepth 40000 in
/-- C3 is refuted on this stream: more than 63 non-newline bytes arrive
before the terminator, so the claim requires that no bytes of the
over-long line reach the parser and that no state changes; but the
64th byte only resets the index, the tail `N:G` of the same over-long
line re-accumulates, is handed to the parser at the line's terminator
(witnessed by its receipt echo), and switches lane north to Green. -/
theorem overflow_recovery_counterexample :
    63 < (overlongStream.takeWhile (fun c => c ≠ '\n')).length ∧
    Msg.overflow ∈ (run ⟨setup (fun _ => false), []⟩ overlongStream).2 ∧
    Msg.echo ['N', ':', 'G'] ∈ (run ⟨setup (fun _ => false), []⟩ overlongStream).2 ∧
    ((run ⟨setup (fun _ => false), []⟩ overlongStream).1.ctrl.lane .north).currentLed
      = 'G' := by
  refine ⟨by decide, ?_, ?_, ?_⟩ <;> decide

/-- C3 amended: when the buffer is full, a further non-newline byte is
discarded, one overflow diagnostic is emitted, the whole in-progress
buffer is reset to empty and nothing is handed to the parser at that
step; bytes arriving after the reset re-accumulate (so a tail of the
over-long line can still reach the parser at the over-long line's own
terminator), and any complete short line arriving after a fresh
terminator is parsed whole, from an empty buffer, unaffected by the
discarded content. -/
theorem overflow_recovery_amended :
    (∀ (m : Machine) (c : Char), c ≠ '\n' →
      ¬ m.buf.length < SERIAL_BUFFER_SIZE - 1 →
      loopStep m c = (⟨m.ctrl, []⟩, [Msg.overflow])) ∧
    (∀ (m : Machine) (stream line : List Char), '\n' ∉ line →
      line.length ≤ SERIAL_BUFFER_SIZE - 1 →
      (run m (stream ++ '\n' :: (line ++ ['\n']))).1.ctrl =
        (processCommand (run m (stream ++ ['\n'])).1.ctrl line).1) := by
  constructor
  · intro m c hc hlen
    simp [loopStep, hc, hlen]
  · intro m stream line hn hlen
    have assoc : stream ++ '\n' :: (line ++ ['\n']) =
        (stream ++ ['\n']) ++ (line ++ ['\n']) := by simp
    rw [assoc, run_append]
    have hbuf : (run m (stream ++ ['\n'])).1.buf = [] := run_newline_buf m stream
    have hacc := run_accumulate line (run m (stream ++ ['\n'])).1 hn
      (by rw [hbuf]; simpa using hlen)
    rw [hacc, hbuf]
    simp

theorem overflow_recovery_amended_witness :
    ('A' ≠ '\n') ∧
    ¬ (List.replicate 63 'A').length < SERIAL_BUFFER_SIZE - 1 ∧
    loopStep ⟨setup (fun _ => false), List.replicate 63 'A'⟩ 'A' =
      (⟨setup (fun _ => false), []⟩, [Msg.overflow]) ∧
    ('\n' ∉ (['E', ':', 'Y'] : List Char)) ∧
    (['E', ':', 'Y'] : List Char).length ≤ SERIAL_BUFFER_SIZE - 1 ∧
    (run ⟨setup (fun _ => false), []⟩
        (List.replicate 64 'A' ++ '\n' :: (['E', ':', 'Y'] ++ ['\n']))).1.ctrl =
      (processCommand
        (run ⟨setup (fun _ => false), []⟩ (List.replicate 64 'A' ++ ['\n'])).1.ctrl
        ['E', ':', 'Y']).1 :=
  ⟨by decide, by decide,
    overflow_recovery_amended.1 ⟨setup (fun _ => false), List.replicate 63 'A'⟩ 'A'
      (by decide) (by decide),
    by decide, by decide,
    overflow_recovery_amended.2 ⟨setup (fun _ => false), []⟩
      (List.replicate 64 'A') ['E', ':', 'Y'] (by decide) (by decide)⟩

/-- C10: empty segments from consecutive, leading or trailing commas
are silently dropped by the strtok tokenization — no diagnostic, no
state change — and the remaining nonempty segments are processed exactly
as if the extra commas were absent. -/
theorem empty_segments_dropped :
    ∀ (st : Ctrl) (xs ys : List Char), nulChar ∉ xs → nulChar ∉ ys →
      ((processCommand st (',' :: ys)).1 = (processCommand st ys).1 ∧
        diagnostics (processCommand st (',' :: ys)).2 =
          diagnostics (processCommand st ys).2) ∧
      ((processCommand st (ys ++ [','])).1 = (processCommand st ys).1 ∧
        diagnostics (processCommand st (ys ++ [','])).2 =
          diagnostics (processCommand st ys).2) ∧
      ((processCommand st (xs ++ ',' :: ',' :: ys)).1 =
          (processCommand st (xs ++ ',' :: ys)).1 ∧
        diagnostics (processCommand st (xs ++ ',' :: ',' :: ys)).2 =
          diagnostics (processCommand st (xs ++ ',' :: ys)).2) := by
  intro st xs ys hx hy
  have hlead : nulChar ∉ ',' :: ys := by
    intro h
    rcases List.mem_cons.mp h with h | h
    · exact absurd h (by decide)
    · exact hy h
  have htrail : nulChar ∉ ys ++ [','] := by
    intro h
    rcases List.mem_append.mp h with h | h
    · exact hy h
    · simp at h
      exact absurd h (by decide)
  have hmidc : ∀ zs : List Char, nulChar ∉ zs → nulChar ∉ xs ++ ',' :: zs := by
    intro zs hzs h
    rcases List.mem_append.mp h with h | h
    · exact hx h
    · rcases List.mem_cons.mp h with h | h
      · exact absurd h (by decide)
      · exact hzs h
  have hdd : nulChar ∉ xs ++ ',' :: ',' :: ys := hmidc (',' :: ys) hlead
  have hd : nulChar ∉ xs ++ ',' :: ys := hmidc ys hy
  refine ⟨⟨?_, ?_⟩, ⟨?_, ?_⟩, ⟨?_, ?_⟩⟩
  · rw [processCommand_fst st _ hlead, processCommand_fst st ys hy,
      strtokens_leading]
  · rw [processCommand_diagnostics st _ hlead,
      processCommand_diagnostics st ys hy, strtokens_leading]
  · rw [processCommand_fst st _ htrail, processCommand_fst st ys hy,
      strtokens_trailing]
  · rw [processCommand_diagnostics st _ htrail,
      processCommand_diagnostics st ys hy, strtokens_trailing]
  · rw [processCommand_fst st _ hdd, processCommand_fst st _ hd,
      strtokens_double]
  · rw [processCommand_diagnostics st _ hdd,
      processCommand_diagnostics st _ hd, strtokens_double]

theorem empty_segments_dropped_witness :
    nulChar ∉ (['N', ':', 'G'] : List Char) ∧
    nulChar ∉ (['E', ':', 'R'] : List Char) ∧
    (processCommand (setup (fun _ => false)) (',' :: ['E', ':', 'R'])).1 =
      (processCommand (setup (fun _ => false)) ['E', ':', 'R']).1 ∧
    diagnostics (processCommand (setup (fun _ => false))
        (['N', ':', 'G'] ++ ',' :: ',' :: ['E', ':', 'R'])).2 =
      diagnostics (processCommand (setup (fun _ => false))
        (['N', ':', 'G'] ++ ',' :: ['E', ':', 'R'])).2 :=
  ⟨by decide, by decide,
    ((empty_segments_dropped (setup (fun _ => false)) ['N', ':', 'G']
      ['E', ':', 'R'] (by decide) (by decide)).1).1,
    ((empty_segments_dropped (setup (fun _ => false)) ['N', ':', 'G']
      ['E', ':', 'R'] (by decide) (by decide)).2.2).2⟩
